import Mathlib

/-!
Verification of the pm2-discord delivery engine.

Shallow embedding of the message-queue core (`dist/message-queue.mjs`), the
delivery transport (`sendToDiscord`) and the shutdown coordinator
(`shutdown.mts` / `dist/message-handler.mjs`).

Modelling conventions:
* JS strings are `List Char`; `substring` is `List.take`, `.length` is list
  length (UTF-16 subtleties are out of scope).
* JS numbers are `ℚ` (rates, times) or `Nat` (counts); `Math.floor` is
  `Int.floor`; NaN/Infinity corner cases are outside the claims' positive,
  finite hypotheses.
* A message's `_retryAttempts` field (`undefined` coalesced to 0 by
  `?? 0` in the source) is a `Nat` field defaulting to 0.
* Timer plumbing (`setInterval`/`setTimeout` handles) is not part of any
  claim's observable state; whether a tick performs a transport call is
  modelled by the predicate `processTickSends`.
* Error strings carried in result objects are abstracted to tags
  (`SendErrorTag`); no claim inspects their text.
-/

namespace PM2Discord

/-- Constant `WEBHOOK_RATE_LIMIT` from dist/message-queue.mjs. -/
def WEBHOOK_RATE_LIMIT : ℚ := 30

/-- Constant `WEBHOOK_RATE_WINDOW_SECONDS` from dist/message-queue.mjs. -/
def WEBHOOK_RATE_WINDOW_SECONDS : ℚ := 60

/-- Constant `DEFAULT_TICK_INTERVAL_MS` from dist/message-queue.mjs. -/
def DEFAULT_TICK_INTERVAL_MS : ℚ := 100

/-- Constant `MAX_RETRY_ATTEMPTS` from dist/message-queue.mjs. -/
def MAX_RETRY_ATTEMPTS : Nat := 5

/-- Constant `DISCORD_MESSAGE_CHAR_LIMIT` from dist/message-queue.mjs. -/
def DISCORD_MESSAGE_CHAR_LIMIT : Nat := 2000

/-- A Discord message record: `{name, event, description, timestamp}` plus the
internal `_retryAttempts` counter (`undefined` reads as 0 in the source). -/
structure DiscordMessage where
  name : List Char
  event : List Char
  description : Option (List Char)
  timestamp : Option Int
  retryAttempts : Nat := 0
deriving Repr, DecidableEq

/-- Length of `msg.description || ''` (the `?? 0` / `|| ''` coalescing used
throughout the source). -/
def descLen (m : DiscordMessage) : Nat :=
  (m.description.getD []).length

/-- The literal `'...'` appended by truncation. -/
def ellipsis : List Char := ['.', '.', '.']

/-- The truncation step of `MessageQueue.addMessage`: a description longer
than `DISCORD_MESSAGE_CHAR_LIMIT` is replaced by
`description.substring(0, DISCORD_MESSAGE_CHAR_LIMIT - 3) + '...'`. -/
def truncateMessage (m : DiscordMessage) : DiscordMessage :=
  if descLen m > DISCORD_MESSAGE_CHAR_LIMIT then
    let truncated := (m.description.getD []).take (DISCORD_MESSAGE_CHAR_LIMIT - 3) ++ ellipsis
    { m with description := some truncated }
  else m

/-- JS `array.join('\n')` on a list of strings. -/
def joinNl : List (List Char) → List Char
  | [] => []
  | [d] => d
  | d :: ds => d ++ '\n' :: joinNl ds

/-- The throttle settings the `MessageQueue` constructor derives from config. -/
structure RateSettings where
  requestsPerTick : Nat
  tickIntervalMs : ℚ
deriving Repr, DecidableEq

/-- The rate computation of the `MessageQueue` constructor
(dist/message-queue.mjs, constructor steps 1-4). `messages` and
`windowSeconds` are the config values after `??` defaulting. -/
def computeRateSettings (messages windowSeconds : ℚ) : RateSettings :=
  let userRatePerSecond := messages / windowSeconds
  let webhookMaxRatePerSecond := WEBHOOK_RATE_LIMIT / WEBHOOK_RATE_WINDOW_SECONDS
  let safeRatePerSecond := min userRatePerSecond webhookMaxRatePerSecond
  if safeRatePerSecond < 1 then
    { requestsPerTick := 1,
      tickIntervalMs := ((⌊1000 / safeRatePerSecond⌋ : ℤ) : ℚ) }
  else
    { requestsPerTick := (max 1 ⌊safeRatePerSecond * (DEFAULT_TICK_INTERVAL_MS / 1000)⌋).toNat,
      tickIntervalMs := DEFAULT_TICK_INTERVAL_MS }

/-- `MessageQueue.getEffectiveRate`: `requestsPerTick * (1000 / tickIntervalMs)`. -/
def getEffectiveRate (rs : RateSettings) : ℚ :=
  (rs.requestsPerTick : ℚ) * (1000 / rs.tickIntervalMs)

/-- Error strings carried by `SendToDiscordResult.error`, abstracted to tags. -/
inductive SendErrorTag where
  | urlNotConfigured
  | requestTimeout
  | network (message : List Char)
  | http (status : Nat) (statusText : List Char)
deriving Repr, DecidableEq

/-- The result object returned by the `sender` transport and consumed by
`processTick`. Field defaults model the JS reading of absent (`undefined`,
falsy) fields: `result.rateLimited`, `result.retryAfter`,
`result.webhookInvalid`. -/
structure SendToDiscordResult where
  success : Bool
  rateLimited : Bool := false
  retryAfter : ℚ := 0
  isGlobal : Bool := false
  webhookInvalid : Bool := false
  error : Option SendErrorTag := none
deriving Repr, DecidableEq

/-- The mutable state of one `MessageQueue` instance that the claims observe.
`requestsPerTick`, `queueMax` (`config.queue_max ?? 100`) and
`bufferEnabled` (`config.buffer ?? true`) are fixed at construction. -/
structure QueueState where
  messageQueue : List DiscordMessage
  currentBuffer : List DiscordMessage
  characterCount : Nat
  rateLimitedUntil : ℚ
  webhookInvalid : Bool
  isShuttingDown : Bool
  isSending : Bool
  requestsPerTick : Nat
  queueMax : Nat
  bufferEnabled : Bool
deriving Repr, DecidableEq

/-- The state right after the `MessageQueue` constructor ran. -/
def initialState (requestsPerTick queueMax : Nat) (bufferEnabled : Bool) : QueueState :=
  { messageQueue := []
    currentBuffer := []
    characterCount := 0
    rateLimitedUntil := 0
    webhookInvalid := false
    isShuttingDown := false
    isSending := false
    requestsPerTick := requestsPerTick
    queueMax := queueMax
    bufferEnabled := bufferEnabled }

/-- `MessageQueue.flushBuffer`: reset the character count; if the buffer is
non-empty, join the buffered descriptions with newlines into one combined
message (reusing the first message's name/event/timestamp) and push it onto
the dispatch queue. -/
def flushBuffer (st : QueueState) : QueueState :=
  match st.currentBuffer with
  | [] => { st with characterCount := 0 }
  | m0 :: _ =>
    let combined : DiscordMessage :=
      { name := m0.name
        event := m0.event
        description := some (joinNl (st.currentBuffer.map (fun m => m.description.getD [])))
        timestamp := m0.timestamp }
    { st with
        characterCount := 0
        currentBuffer := []
        messageQueue := st.messageQueue ++ [combined] }

/-- `MessageQueue.shouldFlushBuffer`. -/
def shouldFlushBuffer (st : QueueState) : Bool :=
  st.characterCount ≥ DISCORD_MESSAGE_CHAR_LIMIT || st.currentBuffer.length ≥ st.queueMax

/-- `MessageQueue.addMessage` (dist/message-queue.mjs): reject during
shutdown; truncate oversized descriptions; with buffering enabled, pre-flush
when the message plus one separator per already-buffered message would
exceed the limit, append, and flush immediately when `shouldFlushBuffer`;
without buffering, push straight onto the dispatch queue. -/
def addMessage (st : QueueState) (message : DiscordMessage) : QueueState :=
  if st.isShuttingDown then st
  else
    let message := truncateMessage message
    let newMessageLength := descLen message
    if st.bufferEnabled then
      let newlinesThatWillExist := st.currentBuffer.length
      let st1 :=
        if st.characterCount + newlinesThatWillExist + newMessageLength >
            DISCORD_MESSAGE_CHAR_LIMIT
        then flushBuffer st else st
      let st2 :=
        { st1 with
            currentBuffer := st1.currentBuffer ++ [message]
            characterCount := st1.characterCount + newMessageLength }
      if shouldFlushBuffer st2 then flushBuffer st2 else st2
    else
      { st with messageQueue := st.messageQueue ++ [message] }

/-- The requeue loop of `processTick`'s failure branches:
`messagesToSend.forEach(msg => ...)` increments each message's retry counter
and `unshift`s it back onto the queue unless the counter exceeds
`MAX_RETRY_ATTEMPTS` (then the message is discarded with a warning). -/
def requeueFailed : List DiscordMessage → List DiscordMessage → List DiscordMessage
  | [], queue => queue
  | msg :: rest, queue =>
    let msg' := { msg with retryAttempts := msg.retryAttempts + 1 }
    if msg'.retryAttempts ≤ MAX_RETRY_ATTEMPTS then
      requeueFailed rest (msg' :: queue)
    else
      requeueFailed rest queue

/-- `MessageQueue.processTick` (dist/message-queue.mjs). `now` is
`Date.now()`, `result` the value the transport resolves with; the guard
order, batch extraction (`splice(0, requestsPerTick)`) and the four outcome
branches follow the source. The backoff branch only re-arms a timer, so its
observable state is unchanged; `isSending` is set and reset within the one
modelled step. The rate-limited branch requires `result.retryAfter` to be
truthy (non-zero). -/
def processTick (st : QueueState) (now : ℚ) (result : SendToDiscordResult) : QueueState :=
  if st.isSending || st.webhookInvalid || st.isShuttingDown then st
  else if ¬ (st.rateLimitedUntil ≤ now) then st
  else if st.messageQueue.isEmpty then st
  else
    let messagesToSend := st.messageQueue.take st.requestsPerTick
    let remaining := st.messageQueue.drop st.requestsPerTick
    if messagesToSend.isEmpty then st
    else if result.webhookInvalid then
      { st with messageQueue := remaining, webhookInvalid := true }
    else if result.rateLimited && decide (result.retryAfter ≠ 0) then
      { st with
          messageQueue := requeueFailed messagesToSend remaining
          rateLimitedUntil := now + result.retryAfter * 1000 }
    else if result.success then
      { st with messageQueue := remaining }
    else
      { st with messageQueue := requeueFailed messagesToSend remaining }

/-- Whether one `processTick` invocation reaches the `await this.sender(...)`
transport call: all guards must pass and the extracted batch must be
non-empty. -/
def processTickSends (st : QueueState) (now : ℚ) : Bool :=
  !st.isSending && !st.webhookInvalid && !st.isShuttingDown &&
    decide (st.rateLimitedUntil ≤ now) &&
    !st.messageQueue.isEmpty &&
    !(st.messageQueue.take st.requestsPerTick).isEmpty

/-- `MessageQueue.beginShutdown`: set the one-way shutdown flag (timer
clearing has no modelled state). -/
def beginShutdown (st : QueueState) : QueueState :=
  { st with isShuttingDown := true }

/-- The operations that can reach a queue instance after construction. -/
inductive QueueOp where
  | add (m : DiscordMessage)
  | flushBuf
  | tick (now : ℚ) (result : SendToDiscordResult)
  | shutdown
deriving Repr

/-- Apply one operation to the queue state. -/
def applyOp (st : QueueState) : QueueOp → QueueState
  | .add m => addMessage st m
  | .flushBuf => flushBuffer st
  | .tick now result => processTick st now result
  | .shutdown => beginShutdown st

/-- Whether an operation performs a transport call from state `st`. -/
def opSends (st : QueueState) : QueueOp → Bool
  | .tick now _ => processTickSends st now
  | _ => false

/-- No operation along the run starting at `st` performs a transport call. -/
def noSendsFrom : QueueState → List QueueOp → Prop
  | _, [] => True
  | st, op :: ops => opSends st op = false ∧ noSendsFrom (applyOp st op) ops

/-- The drain loop of `gracefulShutdown` (shutdown.mts /
dist/message-handler.mjs): repeated `await queue.processTick()` calls;
`ticks` lists the `(now, result)` environment of each iteration. -/
def shutdownDrain (st : QueueState) (ticks : List (ℚ × SendToDiscordResult)) : QueueState :=
  ticks.foldl (fun s p => processTick s p.1 p.2) st

/-- HTTP response surface of the webhook as `sendToDiscord` observes it.
`bodyParseFails` models `res.json()` throwing; `retryAfterHeader` the parsed
`retry-after` header; `globalHeader` a truthy `x-ratelimit-global` header. -/
structure HttpResponse where
  status : Nat
  statusText : List Char
  retryAfterBody : Option ℚ
  globalBody : Option Bool
  bodyParseFails : Bool
  retryAfterHeader : Option ℚ
  globalHeader : Bool
deriving Repr, DecidableEq

/-- Outcome of the guarded `fetch` call: the request timed out (AbortError),
threw a network error, or produced a response. -/
inductive FetchOutcome where
  | timeout
  | networkError (message : List Char)
  | response (res : HttpResponse)
deriving Repr, DecidableEq

/-- JS truthiness of the `discord_url` config value (`!discord_url`). -/
def urlPresent : Option (List Char) → Bool
  | none => false
  | some u => !u.isEmpty

/-- `sendToDiscord` (send-to-discord.mts): early returns for an empty batch
and a missing URL; otherwise classify the fetch outcome. Every exceptional
path (timeout, network error, body-parse failure) is caught in the source
and mapped to a returned result, which this total function mirrors: 429 is
rate-limited with `retry_after` preferred from the body (`|| 0`) and falling
back to the `retry-after` header when the body fails to parse; 204 is
success; 404 is permanent webhook invalidity; anything else is a generic
failure. -/
def sendToDiscord (messages : List DiscordMessage) (discordUrl : Option (List Char))
    (net : FetchOutcome) : SendToDiscordResult :=
  if messages.isEmpty then
    { success := true }
  else if !urlPresent discordUrl then
    { success := false, error := some .urlNotConfigured }
  else
    match net with
    | .timeout =>
      { success := false, error := some .requestTimeout, rateLimited := false }
    | .networkError e =>
      { success := false, error := some (.network e), rateLimited := false }
    | .response r =>
      if r.status = 429 then
        let retryAfter :=
          if r.bodyParseFails then r.retryAfterHeader.getD 0
          else r.retryAfterBody.getD 0
        let isGlobalFromBody :=
          if r.bodyParseFails then false else r.globalBody.getD false
        let isGlobal := if r.globalHeader then true else isGlobalFromBody
        { success := false, rateLimited := true, retryAfter := retryAfter,
          isGlobal := isGlobal }
      else if r.status = 204 then
        { success := true }
      else if r.status = 404 then
        { success := false, webhookInvalid := true,
          error := some (.http r.status r.statusText) }
      else
        { success := false, error := some (.http r.status r.statusText) }

/-- Total description length currently buffered (content only, the quantity
`characterCount` tracks). -/
def sumDescLens (buf : List DiscordMessage) : Nat :=
  (buf.map descLen).sum

/-- The buffering invariant: `characterCount` equals the buffered content
length, and the would-be combined payload (content plus one newline per
join) fits the character ceiling. -/
def bufferInv (st : QueueState) : Prop :=
  st.characterCount = sumDescLens st.currentBuffer ∧
  (st.currentBuffer ≠ [] →
    st.characterCount + (st.currentBuffer.length - 1) ≤ DISCORD_MESSAGE_CHAR_LIMIT)

/-- A run of consecutive `processTick` invocations with the `(now, result)`
environment of each. -/
def runTicks (st : QueueState) (ticks : List (ℚ × SendToDiscordResult)) : QueueState :=
  ticks.foldl (fun s p => processTick s p.1 p.2) st

/-- Each listed tick happens after the backoff deadline then in force and
resolves with a failed, non-permanent outcome (generic failure or
rate-limited): the environment of a run of consecutive failed
deliveries. -/
def consecutiveFailures : QueueState → List (ℚ × SendToDiscordResult) → Bool
  | _, [] => true
  | st, t :: ts =>
    decide (st.rateLimitedUntil ≤ t.1) && !t.2.success && !t.2.webhookInvalid &&
      consecutiveFailures (processTick st t.1 t.2) ts

/-- The messages of a failed batch that survive the retry cap: each counter
incremented, those exceeding `MAX_RETRY_ATTEMPTS` removed. -/
def survivors (batch : List DiscordMessage) : List DiscordMessage :=
  (batch.map (fun m => { m with retryAttempts := m.retryAttempts + 1 })).filter
    (fun m => decide (m.retryAttempts ≤ MAX_RETRY_ATTEMPTS))

/-- Sample message used by concrete witnesses. -/
def sampleMsg : DiscordMessage :=
  { name := ['a'], event := ['l','o','g'], description := some ['m'], timestamp := none }

/-- First sample message for the order counterexample. -/
def msgA : DiscordMessage :=
  { name := ['a'], event := ['l','o','g'], description := some ['1'], timestamp := none }

/-- Second sample message for the order counterexample. -/
def msgB : DiscordMessage :=
  { name := ['b'], event := ['l','o','g'], description := some ['2'], timestamp := none }

/-- Generic-failure transport result used by concrete witnesses. -/
def failResult : SendToDiscordResult := { success := false }

/-- Permanent-invalid transport result used by concrete witnesses. -/
def invalidResult : SendToDiscordResult := { success := false, webhookInvalid := true }

/-- A 429 outcome whose server wait is 0 seconds, as `sendToDiscord`
produces when neither body nor header carries a positive wait. -/
def rateLimitedZero : SendToDiscordResult :=
  { success := false, rateLimited := true, retryAfter := 0 }

/-- A constructor-shaped state holding queue `q`, used by concrete
witnesses. -/
def readyState (q : List DiscordMessage) : QueueState :=
  { messageQueue := q
    currentBuffer := []
    characterCount := 0
    rateLimitedUntil := 0
    webhookInvalid := false
    isShuttingDown := false
    isSending := false
    requestsPerTick := 1
    queueMax := 100
    bufferEnabled := true }

/-- A ready-to-send state whose `requestsPerTick` is 2, so one tick takes a
two-message batch. -/
def twoBatchState : QueueState :=
  { readyState [msgA, msgB] with requestsPerTick := 2 }

/-! Rate derivation: helper lemmas. -/

lemma webhookMaxRate_eq_half :
    WEBHOOK_RATE_LIMIT / WEBHOOK_RATE_WINDOW_SECONDS = (1 : ℚ) / 2 := by
  norm_num [WEBHOOK_RATE_LIMIT, WEBHOOK_RATE_WINDOW_SECONDS]

lemma safeRate_pos (m w : ℚ) (hm : 0 < m) (hw : 0 < w) :
    0 < min (m / w) (WEBHOOK_RATE_LIMIT / WEBHOOK_RATE_WINDOW_SECONDS) := by
  refine lt_min (div_pos hm hw) ?_
  rw [webhookMaxRate_eq_half]
  norm_num

lemma safeRate_le_half (m w : ℚ) :
    min (m / w) (WEBHOOK_RATE_LIMIT / WEBHOOK_RATE_WINDOW_SECONDS) ≤ 1 / 2 := by
  rw [← webhookMaxRate_eq_half]
  exact min_le_right _ _

lemma floor_thousand_div_ge (s : ℚ) (hs : 0 < s) (hle : s ≤ 1 / 2) :
    (2000 : ℤ) ≤ ⌊(1000 : ℚ) / s⌋ := by
  rw [Int.le_floor]
  push_cast
  rw [le_div_iff hs]
  linarith

lemma computeRateSettings_low (m w : ℚ) (hm : 0 < m) (hw : 0 < w) :
    computeRateSettings m w =
      { requestsPerTick := 1,
        tickIntervalMs :=
          ((⌊(1000 : ℚ) / min (m / w) (WEBHOOK_RATE_LIMIT / WEBHOOK_RATE_WINDOW_SECONDS)⌋ : ℤ) : ℚ) } := by
  have hlt : min (m / w) (WEBHOOK_RATE_LIMIT / WEBHOOK_RATE_WINDOW_SECONDS) < 1 :=
    lt_of_le_of_lt (safeRate_le_half m w) (by norm_num)
  simp only [computeRateSettings, if_pos hlt]

lemma tickIntervalMs_ge (m w : ℚ) (hm : 0 < m) (hw : 0 < w) :
    (2000 : ℚ) ≤ (computeRateSettings m w).tickIntervalMs := by
  rw [computeRateSettings_low m w hm hw]
  dsimp only
  have h := floor_thousand_div_ge _ (safeRate_pos m w hm hw) (safeRate_le_half m w)
  exact_mod_cast h

/-- C6: for every positive finite configured pair, the constructor-derived
effective send rate `requestsPerTick * (1000 / tickIntervalMs)` is at most
the webhook hard ceiling 30/60 = 0.5 requests per second. -/
theorem effective_rate_le_webhook_ceiling (m w : ℚ) (hm : 0 < m) (hw : 0 < w) :
    getEffectiveRate (computeRateSettings m w) ≤
      WEBHOOK_RATE_LIMIT / WEBHOOK_RATE_WINDOW_SECONDS := by
  rw [webhookMaxRate_eq_half]
  have htick := tickIntervalMs_ge m w hm hw
  have hpos : (0 : ℚ) < (computeRateSettings m w).tickIntervalMs :=
    lt_of_lt_of_le (by norm_num) htick
  have hrpt : (computeRateSettings m w).requestsPerTick = 1 := by
    rw [computeRateSettings_low m w hm hw]
  unfold getEffectiveRate
  rw [hrpt]
  push_cast
  rw [one_mul, div_le_iff hpos]
  linarith

/-- Witness for `effective_rate_le_webhook_ceiling` at the default
configuration 30 messages per 60 seconds. -/
theorem effective_rate_le_webhook_ceiling_witness :
    (0 : ℚ) < 30 ∧ (0 : ℚ) < 60 ∧
      getEffectiveRate (computeRateSettings 30 60) ≤
        WEBHOOK_RATE_LIMIT / WEBHOOK_RATE_WINDOW_SECONDS :=
  ⟨by norm_num, by norm_num,
    effective_rate_le_webhook_ceiling 30 60 (by norm_num) (by norm_num)⟩

/-- C9: for every positive finite configured pair, the safe rate
`min(userRate, 0.5)` is below 1, so the constructor always takes the
low-rate branch: `requestsPerTick` is exactly 1 (so every non-empty
dispatch batch `splice(0, requestsPerTick)` has exactly one message) and
`tickIntervalMs` is at least 2000 ms. -/
theorem low_rate_branch_always (m w : ℚ) (hm : 0 < m) (hw : 0 < w) :
    (computeRateSettings m w).requestsPerTick = 1 ∧
    (2000 : ℚ) ≤ (computeRateSettings m w).tickIntervalMs ∧
    ∀ q : List DiscordMessage, q ≠ [] →
      (q.take (computeRateSettings m w).requestsPerTick).length = 1 := by
  have hrpt : (computeRateSettings m w).requestsPerTick = 1 := by
    rw [computeRateSettings_low m w hm hw]
  refine ⟨hrpt, tickIntervalMs_ge m w hm hw, ?_⟩
  intro q hq
  rw [hrpt, List.length_take]
  have : 0 < q.length := List.length_pos.mpr hq
  omega

/-- Witness for `low_rate_branch_always` at the default configuration and a
one-element queue. -/
theorem low_rate_branch_always_witness :
    (0 : ℚ) < 30 ∧ (0 : ℚ) < 60 ∧
      (computeRateSettings 30 60).requestsPerTick = 1 ∧
      (2000 : ℚ) ≤ (computeRateSettings 30 60).tickIntervalMs ∧
      ∀ q : List DiscordMessage, q ≠ [] →
        (q.take (computeRateSettings 30 60).requestsPerTick).length = 1 := by
  have h := low_rate_branch_always 30 60 (by norm_num) (by norm_num)
  exact ⟨by norm_num, by norm_num, h.1, h.2.1, h.2.2⟩

/-- C7: a message whose description exceeds 2000 characters is stored after
the truncation step of `addMessage` as exactly the first 1997 characters of
the original followed by the three-character ellipsis, 2000 characters in
all. -/
theorem truncation_exact (m : DiscordMessage) (d : List Char)
    (hd : m.description = some d) (hlen : d.length > 2000) :
    (truncateMessage m).description = some (d.take 1997 ++ ellipsis) ∧
    ((truncateMessage m).description.getD []).length = 2000 := by
  have hgt : descLen m > DISCORD_MESSAGE_CHAR_LIMIT := by
    simpa [descLen, hd, DISCORD_MESSAGE_CHAR_LIMIT] using hlen
  have h1 : (truncateMessage m).description = some (d.take 1997 ++ ellipsis) := by
    simp only [truncateMessage, if_pos hgt, hd, Option.getD_some]
    norm_num [DISCORD_MESSAGE_CHAR_LIMIT]
  refine ⟨h1, ?_⟩
  rw [h1, Option.getD_some, List.length_append, List.length_take]
  simp only [ellipsis]
  simp only [List.length_cons, List.length_nil]
  omega

/-- Witness for `truncation_exact` on a 2001-character description. -/
theorem truncation_exact_witness :
    (List.replicate 2001 'a').length > 2000 ∧
    (truncateMessage
        { name := ['a'], event := ['l','o','g'],
          description := some (List.replicate 2001 'a'), timestamp := none }).description =
      some ((List.replicate 2001 'a').take 1997 ++ ellipsis) ∧
    ((truncateMessage
        { name := ['a'], event := ['l','o','g'],
          description := some (List.replicate 2001 'a'), timestamp := none }).description.getD
        []).length = 2000 := by
  have hl : (List.replicate 2001 'a').length > 2000 := by
    rw [List.length_replicate]
    norm_num
  have h := truncation_exact
    { name := ['a'], event := ['l','o','g'],
      description := some (List.replicate 2001 'a'), timestamp := none }
    (List.replicate 2001 'a') rfl hl
  exact ⟨hl, h.1, h.2⟩

/-- C8: the transport converts every exceptional path into a returned
result instead of propagating it: a timeout yields a generic failure that
is not rate-limited, a network or fetch error likewise, and a 429 whose
body fails to parse is still classified rate-limited with the wait taken
from the `retry-after` header (0 when absent). `sendToDiscord` is a total
function into `SendToDiscordResult`, so no input reaches the caller as an
exception. -/
theorem transport_never_throws (msgs : List DiscordMessage) (url : Option (List Char))
    (hm : msgs ≠ []) (hu : urlPresent url = true) :
    ((sendToDiscord msgs url .timeout).success = false ∧
      (sendToDiscord msgs url .timeout).rateLimited = false ∧
      (sendToDiscord msgs url .timeout).webhookInvalid = false ∧
      (sendToDiscord msgs url .timeout).error = some .requestTimeout) ∧
    (∀ e : List Char,
      (sendToDiscord msgs url (.networkError e)).success = false ∧
      (sendToDiscord msgs url (.networkError e)).rateLimited = false ∧
      (sendToDiscord msgs url (.networkError e)).webhookInvalid = false) ∧
    (∀ r : HttpResponse, r.status = 429 → r.bodyParseFails = true →
      (sendToDiscord msgs url (.response r)).success = false ∧
      (sendToDiscord msgs url (.response r)).rateLimited = true ∧
      (sendToDiscord msgs url (.response r)).retryAfter = r.retryAfterHeader.getD 0) := by
  have hne : msgs.isEmpty = false := by
    simpa [List.isEmpty_iff] using hm
  refine ⟨?_, ?_, ?_⟩
  · simp [sendToDiscord, hne, hu]
  · intro e
    simp [sendToDiscord, hne, hu]
  · intro r h429 hparse
    simp [sendToDiscord, hne, hu, h429, hparse]

/-- Witness for `transport_never_throws` on a one-message batch and a
non-empty URL. -/
theorem transport_never_throws_witness :
    ([({ name := ['a'], event := ['l','o','g'], description := some ['x'],
          timestamp := none } : DiscordMessage)] ≠ []) ∧
    urlPresent (some ['u']) = true ∧
    (sendToDiscord
        [{ name := ['a'], event := ['l','o','g'], description := some ['x'],
            timestamp := none }] (some ['u']) .timeout).rateLimited = false := by
  have h := transport_never_throws
    [{ name := ['a'], event := ['l','o','g'], description := some ['x'], timestamp := none }]
    (some ['u']) (by simp) (by simp [urlPresent])
  exact ⟨by simp, by simp [urlPresent], h.1.2.1⟩

/-! Buffering: helper lemmas for the combined-payload bound. -/

lemma joinNl_length : ∀ ds : List (List Char), ds ≠ [] →
    (joinNl ds).length = (ds.map List.length).sum + (ds.length - 1)
  | [], h => absurd rfl h
  | [_], _ => by simp [joinNl]
  | d :: d2 :: tl, _ => by
    have ih := joinNl_length (d2 :: tl) (by simp)
    simp only [joinNl, List.length_append, List.length_cons, List.map_cons,
      List.sum_cons] at ih ⊢
    omega

lemma descLen_truncate_le (m : DiscordMessage) :
    descLen (truncateMessage m) ≤ DISCORD_MESSAGE_CHAR_LIMIT := by
  unfold truncateMessage
  split
  · simp only [descLen, Option.getD_some, List.length_append, List.length_take, ellipsis,
      List.length_cons, List.length_nil, DISCORD_MESSAGE_CHAR_LIMIT]
    omega
  · omega

lemma sumDescLens_append (buf : List DiscordMessage) (m : DiscordMessage) :
    sumDescLens (buf ++ [m]) = sumDescLens buf + descLen m := by
  simp [sumDescLens]

lemma flushBuffer_resets (st : QueueState) :
    (flushBuffer st).currentBuffer = [] ∧ (flushBuffer st).characterCount = 0 := by
  cases h : st.currentBuffer with
  | nil => exact ⟨by simp [flushBuffer, h], by simp [flushBuffer, h]⟩
  | cons m0 tl => exact ⟨by simp [flushBuffer, h], by simp [flushBuffer, h]⟩

lemma flushBuffer_inv (st : QueueState) : bufferInv (flushBuffer st) := by
  obtain ⟨h1, h2⟩ := flushBuffer_resets st
  exact ⟨by simp [h1, h2, sumDescLens], by simp [h1]⟩

lemma flushBuffer_queue (st : QueueState) (hinv : bufferInv st) :
    ∀ c ∈ (flushBuffer st).messageQueue,
      c ∈ st.messageQueue ∨ descLen c ≤ DISCORD_MESSAGE_CHAR_LIMIT := by
  cases h : st.currentBuffer with
  | nil =>
    intro c hcmem
    simp only [flushBuffer, h] at hcmem
    exact Or.inl hcmem
  | cons m0 tl =>
    obtain ⟨hc, hbound⟩ := hinv
    intro c hcmem
    simp only [flushBuffer, h, List.mem_append, List.mem_singleton] at hcmem
    rcases hcmem with hold | hnew
    · exact Or.inl hold
    · right
      subst hnew
      have hne : ((m0 :: tl).map fun m => m.description.getD []) ≠ [] := by
        simp
      have hlen := joinNl_length _ hne
      simp only [descLen, Option.getD_some, List.map_cons] at hlen ⊢
      rw [hlen]
      have hmap : (((m0 :: tl).map fun m => m.description.getD []).map List.length).sum
          = sumDescLens (m0 :: tl) := by
        rw [List.map_map]
        rfl
      simp only [List.map_cons] at hmap
      rw [hmap]
      simp only [List.length_cons, List.length_map]
      have hb := hbound (by simp [h])
      rw [h] at hc hb
      simp only [List.length_cons] at hb
      omega

lemma bufferInv_append (st1 : QueueState) (msg : DiscordMessage)
    (hinv1 : bufferInv st1)
    (hfit : st1.characterCount + st1.currentBuffer.length + descLen msg ≤
      DISCORD_MESSAGE_CHAR_LIMIT) :
    bufferInv { st1 with
      currentBuffer := st1.currentBuffer ++ [msg]
      characterCount := st1.characterCount + descLen msg } := by
  obtain ⟨hc, _⟩ := hinv1
  constructor
  · simp [sumDescLens_append, hc]
  · intro _
    simp only [List.length_append, List.length_cons, List.length_nil]
    omega

lemma addMessage_step (st : QueueState) (m : DiscordMessage) (hinv : bufferInv st) :
    bufferInv (addMessage st m) ∧
    ∀ c ∈ (addMessage st m).messageQueue,
      c ∈ st.messageQueue ∨ descLen c ≤ DISCORD_MESSAGE_CHAR_LIMIT := by
  by_cases hsd : st.isShuttingDown = true
  · rw [addMessage, if_pos hsd]
    exact ⟨hinv, fun c hc => Or.inl hc⟩
  · rw [addMessage, if_neg hsd]
    by_cases hbuf : st.bufferEnabled = true
    · rw [if_pos hbuf]
      dsimp only
      have hL : descLen (truncateMessage m) ≤ DISCORD_MESSAGE_CHAR_LIMIT :=
        descLen_truncate_le m
      by_cases hover : st.characterCount + st.currentBuffer.length +
          descLen (truncateMessage m) > DISCORD_MESSAGE_CHAR_LIMIT
      · rw [if_pos hover]
        obtain ⟨hb1, hcnt1⟩ := flushBuffer_resets st
        have hq1 := flushBuffer_queue st hinv
        have hinv2 : bufferInv { flushBuffer st with
            currentBuffer := (flushBuffer st).currentBuffer ++ [truncateMessage m]
            characterCount := (flushBuffer st).characterCount +
              descLen (truncateMessage m) } := by
          refine bufferInv_append _ _ (flushBuffer_inv st) ?_
          rw [hb1, hcnt1]
          simpa using hL
        by_cases hsf : shouldFlushBuffer { flushBuffer st with
            currentBuffer := (flushBuffer st).currentBuffer ++ [truncateMessage m]
            characterCount := (flushBuffer st).characterCount +
              descLen (truncateMessage m) } = true
        · rw [if_pos hsf]
          refine ⟨flushBuffer_inv _, ?_⟩
          intro c hc
          rcases flushBuffer_queue _ hinv2 c hc with h2 | h2
          · have h3 : c ∈ (flushBuffer st).messageQueue := h2
            rcases hq1 c h3 with h4 | h4
            · exact Or.inl h4
            · exact Or.inr h4
          · exact Or.inr h2
        · rw [if_neg hsf]
          refine ⟨hinv2, ?_⟩
          intro c hc
          have h3 : c ∈ (flushBuffer st).messageQueue := hc
          exact hq1 c h3
      · rw [if_neg hover]
        push_neg at hover
        have hinv2 : bufferInv { st with
            currentBuffer := st.currentBuffer ++ [truncateMessage m]
            characterCount := st.characterCount + descLen (truncateMessage m) } :=
          bufferInv_append _ _ hinv hover
        by_cases hsf : shouldFlushBuffer { st with
            currentBuffer := st.currentBuffer ++ [truncateMessage m]
            characterCount := st.characterCount + descLen (truncateMessage m) } = true
        · rw [if_pos hsf]
          refine ⟨flushBuffer_inv _, ?_⟩
          intro c hc
          rcases flushBuffer_queue _ hinv2 c hc with h2 | h2
          · exact Or.inl h2
          · exact Or.inr h2
        · rw [if_neg hsf]
          exact ⟨hinv2, fun c hc => Or.inl hc⟩
    · rw [if_neg hbuf]
      refine ⟨⟨hinv.1, hinv.2⟩, ?_⟩
      intro c hc
      have hc' : c ∈ st.messageQueue ++ [truncateMessage m] := hc
      rcases List.mem_append.mp hc' with h | h
      · exact Or.inl h
      · right
        simp only [List.mem_singleton] at h
        subst h
        exact descLen_truncate_le m

/-- C1: starting from a freshly constructed queue with buffering enabled,
after any sequence of `addMessage` calls every message the buffering
machinery has pushed onto the dispatch queue — each one a combined message
whose description is the buffered descriptions joined by newline
separators — has description length at most 2000, and the same still holds
after a further `flushBuffer` of the pending buffer. -/
theorem buffered_payload_within_limit (msgs : List DiscordMessage) (rpt qmax : Nat) :
    (∀ c ∈ (msgs.foldl addMessage (initialState rpt qmax true)).messageQueue,
      descLen c ≤ DISCORD_MESSAGE_CHAR_LIMIT) ∧
    (∀ c ∈ (flushBuffer (msgs.foldl addMessage (initialState rpt qmax true))).messageQueue,
      descLen c ≤ DISCORD_MESSAGE_CHAR_LIMIT) := by
  have key : ∀ (ms : List DiscordMessage) (st : QueueState), bufferInv st →
      (∀ c ∈ st.messageQueue, descLen c ≤ DISCORD_MESSAGE_CHAR_LIMIT) →
      bufferInv (ms.foldl addMessage st) ∧
      ∀ c ∈ (ms.foldl addMessage st).messageQueue,
        descLen c ≤ DISCORD_MESSAGE_CHAR_LIMIT := by
    intro ms
    induction ms with
    | nil => intro st h1 h2; exact ⟨h1, h2⟩
    | cons x xs ih =>
      intro st h1 h2
      obtain ⟨hinv', hmem⟩ := addMessage_step st x h1
      refine ih (addMessage st x) hinv' ?_
      intro c hc
      rcases hmem c hc with h | h
      · exact h2 c h
      · exact h
  have hinit : bufferInv (initialState rpt qmax true) := by
    exact ⟨by simp [initialState, sumDescLens], by simp [initialState]⟩
  obtain ⟨hinv, hall⟩ := key msgs (initialState rpt qmax true) hinit
    (by simp [initialState])
  refine ⟨hall, ?_⟩
  intro c hc
  rcases flushBuffer_queue _ hinv c hc with h | h
  · exact hall c h
  · exact h

/-! Retry/drop policy: helper lemmas. -/

lemma requeueFailed_retry_le : ∀ batch queue : List DiscordMessage,
    (∀ x ∈ queue, x.retryAttempts ≤ MAX_RETRY_ATTEMPTS) →
    ∀ x ∈ requeueFailed batch queue, x.retryAttempts ≤ MAX_RETRY_ATTEMPTS
  | [], _, h => h
  | msg :: rest, queue, h => by
    simp only [requeueFailed]
    split
    · next hguard =>
      refine requeueFailed_retry_le rest _ ?_
      intro x hx
      rcases List.mem_cons.mp hx with h1 | h1
      · subst h1
        exact hguard
      · exact h x h1
    · exact requeueFailed_retry_le rest _ h

lemma processTick_retry_le (st : QueueState) (now : ℚ) (result : SendToDiscordResult)
    (h : ∀ x ∈ st.messageQueue, x.retryAttempts ≤ MAX_RETRY_ATTEMPTS) :
    ∀ x ∈ (processTick st now result).messageQueue, x.retryAttempts ≤ MAX_RETRY_ATTEMPTS := by
  have hdrop : ∀ x ∈ st.messageQueue.drop st.requestsPerTick,
      x.retryAttempts ≤ MAX_RETRY_ATTEMPTS :=
    fun x hx => h x (List.mem_of_mem_drop hx)
  unfold processTick
  split
  · exact h
  split
  · exact h
  split
  · exact h
  dsimp only
  split
  · exact h
  split
  · exact hdrop
  split
  · exact requeueFailed_retry_le _ _ hdrop
  split
  · exact hdrop
  · exact requeueFailed_retry_le _ _ hdrop

lemma processTick_fail_step (st : QueueState) (now : ℚ) (result : SendToDiscordResult)
    (x : DiscordMessage) (rest : List DiscordMessage)
    (hq : st.messageQueue = x :: rest) (hrpt : st.requestsPerTick = 1)
    (hsend : st.isSending = false) (hinv : st.webhookInvalid = false)
    (hshut : st.isShuttingDown = false) (hbk : st.rateLimitedUntil ≤ now)
    (hwi : result.webhookInvalid = false) (hsucc : result.success = false)
    (hrl : (result.rateLimited && decide (result.retryAfter ≠ 0)) = false) :
    processTick st now result =
      { st with messageQueue :=
          if x.retryAttempts + 1 ≤ MAX_RETRY_ATTEMPTS then
            { x with retryAttempts := x.retryAttempts + 1 } :: rest
          else rest } := by
  have ht : List.take 1 (x :: rest) = [x] := rfl
  have hd : List.drop 1 (x :: rest) = rest := rfl
  unfold processTick
  rw [hq, hrpt, hsend, hinv, hshut]
  rw [if_neg (show ¬((false || false || false) = true) from by decide)]
  rw [if_neg (not_not_intro hbk)]
  rw [if_neg (show ¬((x :: rest).isEmpty = true) from by simp)]
  dsimp only
  rw [ht, hd]
  rw [if_neg (show ¬(([x] : List DiscordMessage).isEmpty = true) from by simp)]
  rw [hwi]
  rw [if_neg (show ¬(false = true) from by decide)]
  rw [hrl]
  rw [if_neg (show ¬(false = true) from by decide)]
  rw [hsucc]
  rw [if_neg (show ¬(false = true) from by decide)]
  simp only [requeueFailed]

lemma processTick_ratelimited_step (st : QueueState) (now : ℚ)
    (result : SendToDiscordResult) (x : DiscordMessage) (rest : List DiscordMessage)
    (hq : st.messageQueue = x :: rest) (hrpt : st.requestsPerTick = 1)
    (hsend : st.isSending = false) (hinv : st.webhookInvalid = false)
    (hshut : st.isShuttingDown = false) (hbk : st.rateLimitedUntil ≤ now)
    (hwi : result.webhookInvalid = false)
    (hrl : (result.rateLimited && decide (result.retryAfter ≠ 0)) = true) :
    processTick st now result = { st with messageQueue := if x.retryAttempts + 1 ≤ MAX_RETRY_ATTEMPTS then { x with retryAttempts := x.retryAttempts + 1 } :: rest else rest, rateLimitedUntil := now + result.retryAfter * 1000 } := by
  have ht : List.take 1 (x :: rest) = [x] := rfl
  have hd : List.drop 1 (x :: rest) = rest := rfl
  unfold processTick
  rw [hq, hrpt, hsend, hinv, hshut]
  rw [if_neg (show ¬((false || false || false) = true) from by decide)]
  rw [if_neg (not_not_intro hbk)]
  rw [if_neg (show ¬((x :: rest).isEmpty = true) from by simp)]
  dsimp only
  rw [ht, hd]
  rw [if_neg (show ¬(([x] : List DiscordMessage).isEmpty = true) from by simp)]
  rw [hwi]
  rw [if_neg (show ¬(false = true) from by decide)]
  rw [hrl]
  rw [if_pos rfl]
  simp only [requeueFailed]

lemma processTick_failed_outcome_step (st : QueueState) (now : ℚ)
    (result : SendToDiscordResult) (x : DiscordMessage) (rest : List DiscordMessage)
    (hq : st.messageQueue = x :: rest) (hrpt : st.requestsPerTick = 1)
    (hsend : st.isSending = false) (hinv : st.webhookInvalid = false)
    (hshut : st.isShuttingDown = false) (hbk : st.rateLimitedUntil ≤ now)
    (hwi : result.webhookInvalid = false) (hsucc : result.success = false) :
    processTick st now result = { st with messageQueue := if x.retryAttempts + 1 ≤ MAX_RETRY_ATTEMPTS then { x with retryAttempts := x.retryAttempts + 1 } :: rest else rest, rateLimitedUntil := if (result.rateLimited && decide (result.retryAfter ≠ 0)) = true then now + result.retryAfter * 1000 else st.rateLimitedUntil } := by
  cases hcond : (result.rateLimited && decide (result.retryAfter ≠ 0)) with
  | true =>
    rw [processTick_ratelimited_step st now result x rest hq hrpt hsend hinv hshut hbk
      hwi hcond]
    rw [if_pos rfl]
  | false =>
    rw [processTick_fail_step st now result x rest hq hrpt hsend hinv hshut hbk hwi
      hsucc hcond]
    rw [if_neg (show ¬(false = true) from by decide)]

lemma fail_chain : ∀ (ticks : List (ℚ × SendToDiscordResult)) (st : QueueState)
    (x : DiscordMessage) (rest : List DiscordMessage),
    ticks ≠ [] →
    st.messageQueue = x :: rest → st.requestsPerTick = 1 →
    st.isSending = false → st.webhookInvalid = false → st.isShuttingDown = false →
    consecutiveFailures st ticks = true →
    x.retryAttempts + ticks.length = 6 →
    (runTicks st ticks).messageQueue = rest
  | [], _, _, _, hne, _, _, _, _, _, _, _ => absurd rfl hne
  | [t], st, x, rest, _, hq, hrpt, hsend, hinv, hshut, hcf, hsum => by
    have hcf' : (decide (st.rateLimitedUntil ≤ t.1) && !t.2.success &&
        !t.2.webhookInvalid && consecutiveFailures (processTick st t.1 t.2) []) =
          true := hcf
    simp only [Bool.and_eq_true, Bool.not_eq_true', decide_eq_true_eq] at hcf'
    obtain ⟨⟨⟨hbk, hsucc⟩, hwi⟩, _⟩ := hcf'
    have hx : x.retryAttempts = 5 := by
      simp only [List.length_cons, List.length_nil] at hsum
      omega
    have hstep := processTick_failed_outcome_step st t.1 t.2 x rest hq hrpt hsend hinv
      hshut hbk hwi hsucc
    rw [hx] at hstep
    rw [if_neg (show ¬(5 + 1 ≤ MAX_RETRY_ATTEMPTS) from by decide)] at hstep
    show (processTick st t.1 t.2).messageQueue = rest
    rw [hstep]
  | t :: t2 :: ts, st, x, rest, _, hq, hrpt, hsend, hinv, hshut, hcf, hsum => by
    have hcf' : (decide (st.rateLimitedUntil ≤ t.1) && !t.2.success &&
        !t.2.webhookInvalid &&
          consecutiveFailures (processTick st t.1 t.2) (t2 :: ts)) = true := hcf
    simp only [Bool.and_eq_true, Bool.not_eq_true', decide_eq_true_eq] at hcf'
    obtain ⟨⟨⟨hbk, hsucc⟩, hwi⟩, hcf2⟩ := hcf'
    have hguard : x.retryAttempts + 1 ≤ MAX_RETRY_ATTEMPTS := by
      show x.retryAttempts + 1 ≤ 5
      simp only [List.length_cons] at hsum
      omega
    have hstep := processTick_failed_outcome_step st t.1 t.2 x rest hq hrpt hsend hinv
      hshut hbk hwi hsucc
    rw [if_pos hguard] at hstep
    show (runTicks (processTick st t.1 t.2) (t2 :: ts)).messageQueue = rest
    rw [hstep] at hcf2 ⊢
    refine fail_chain (t2 :: ts) _ { x with retryAttempts := x.retryAttempts + 1 } rest
      (by simp) rfl hrpt hsend hinv hshut hcf2 ?_
    simp only [List.length_cons] at hsum ⊢
    omega

/-- C2: every failed delivery outcome increments the retry counter of each
batched message and requeues only those whose counter stays within
`MAX_RETRY_ATTEMPTS` (5), so the dispatch-queue invariant that every queued
message has `retryAttempts` at most 5 is preserved by `processTick`; and a
fresh head message subjected to six consecutive failed or rate-limited
outcomes (each tick after the backoff then in force) is gone from the
queue afterward — the queue is exactly the messages behind it — so it can
never be sent again. -/
theorem retry_cap_and_drop :
    (∀ (st : QueueState) (now : ℚ) (result : SendToDiscordResult),
      (∀ x ∈ st.messageQueue, x.retryAttempts ≤ MAX_RETRY_ATTEMPTS) →
      ∀ x ∈ (processTick st now result).messageQueue,
        x.retryAttempts ≤ MAX_RETRY_ATTEMPTS) ∧
    (∀ (st : QueueState) (x : DiscordMessage) (rest : List DiscordMessage)
        (ticks : List (ℚ × SendToDiscordResult)),
      st.messageQueue = x :: rest → x.retryAttempts = 0 →
      st.requestsPerTick = 1 → st.isSending = false → st.webhookInvalid = false →
      st.isShuttingDown = false → ticks.length = 6 →
      consecutiveFailures st ticks = true →
      (runTicks st ticks).messageQueue = rest) := by
  constructor
  · exact processTick_retry_le
  · intro st x rest ticks hq h0 hrpt hsend hinv hshut hlen hcf
    have hne : ticks ≠ [] := by
      intro hcon
      rw [hcon] at hlen
      simp at hlen
    refine fail_chain ticks st x rest hne hq hrpt hsend hinv hshut hcf ?_
    rw [hlen, h0]


/-- Witness for `retry_cap_and_drop`: one fresh message, six generic
failures, empty queue afterward. -/
theorem retry_cap_and_drop_witness :
    (readyState [sampleMsg]).messageQueue = sampleMsg :: [] ∧
    sampleMsg.retryAttempts = 0 ∧
    (List.replicate 6 ((0 : ℚ), failResult)).length = 6 ∧
    consecutiveFailures (readyState [sampleMsg])
      (List.replicate 6 ((0 : ℚ), failResult)) = true ∧
    (runTicks (readyState [sampleMsg])
      (List.replicate 6 ((0 : ℚ), failResult))).messageQueue = [] := by
  have h := retry_cap_and_drop.2 (readyState [sampleMsg]) sampleMsg []
    (List.replicate 6 ((0 : ℚ), failResult)) rfl rfl rfl rfl rfl rfl (by decide)
    (by decide)
  exact ⟨rfl, rfl, by decide, by decide, h⟩

/-! Breaker: monotonicity of the webhook-invalid flag. -/

lemma flushBuffer_webhookInvalid (st : QueueState) :
    (flushBuffer st).webhookInvalid = st.webhookInvalid := by
  cases h : st.currentBuffer <;> simp [flushBuffer, h]

lemma flushBuffer_isShuttingDown (st : QueueState) :
    (flushBuffer st).isShuttingDown = st.isShuttingDown := by
  cases h : st.currentBuffer <;> simp [flushBuffer, h]

lemma addMessage_webhookInvalid (st : QueueState) (m : DiscordMessage) :
    (addMessage st m).webhookInvalid = st.webhookInvalid := by
  unfold addMessage
  split
  · rfl
  · dsimp only
    split
    · split <;> (try split) <;> simp [flushBuffer_webhookInvalid]
    · rfl

lemma processTick_invalid_noop (st : QueueState) (now : ℚ) (result : SendToDiscordResult)
    (h : st.webhookInvalid = true) :
    processTick st now result = st := by
  unfold processTick
  rw [if_pos]
  rw [h]
  simp

lemma processTickSends_invalid (st : QueueState) (now : ℚ)
    (h : st.webhookInvalid = true) :
    processTickSends st now = false := by
  unfold processTickSends
  rw [h]
  simp

lemma applyOp_invalid_mono (st : QueueState) (op : QueueOp)
    (h : st.webhookInvalid = true) :
    (applyOp st op).webhookInvalid = true := by
  cases op with
  | add m => rw [applyOp, addMessage_webhookInvalid]; exact h
  | flushBuf => rw [applyOp, flushBuffer_webhookInvalid]; exact h
  | tick now result => rw [applyOp, processTick_invalid_noop st now result h]; exact h
  | shutdown => exact h

lemma opSends_invalid (st : QueueState) (op : QueueOp) (h : st.webhookInvalid = true) :
    opSends st op = false := by
  cases op with
  | tick now result => exact processTickSends_invalid st now h
  | add m => rfl
  | flushBuf => rfl
  | shutdown => rfl

lemma noSendsFrom_of_invalid : ∀ (st : QueueState) (ops : List QueueOp),
    st.webhookInvalid = true → noSendsFrom st ops
  | _, [], _ => trivial
  | st, op :: ops, h =>
    ⟨opSends_invalid st op h,
      noSendsFrom_of_invalid (applyOp st op) ops (applyOp_invalid_mono st op h)⟩

/-- C3: a tick that reaches the transport and receives a permanent-invalid
(webhook-invalid) outcome sets the breaker flag, discards the in-flight
batch (the queue is exactly what was behind it, nothing requeued), and for
every subsequent sequence of operations — adds, buffer flushes, further
ticks, shutdown — no operation ever performs a transport call again. -/
theorem breaker_halts_all_sends (st : QueueState) (now : ℚ)
    (result : SendToDiscordResult) (ops : List QueueOp)
    (hsends : processTickSends st now = true) (hres : result.webhookInvalid = true) :
    (processTick st now result).webhookInvalid = true ∧
    (processTick st now result).messageQueue =
      st.messageQueue.drop st.requestsPerTick ∧
    noSendsFrom (processTick st now result) ops := by
  simp only [processTickSends, Bool.and_eq_true, Bool.not_eq_true'] at hsends
  obtain ⟨⟨⟨⟨⟨h1, h2⟩, h3⟩, h4d⟩, h5⟩, h6⟩ := hsends
  have h4 : st.rateLimitedUntil ≤ now := of_decide_eq_true h4d
  have hstep : processTick st now result =
      { st with messageQueue := st.messageQueue.drop st.requestsPerTick
                webhookInvalid := true } := by
    unfold processTick
    rw [h1, h2, h3]
    rw [if_neg (show ¬((false || false || false) = true) from by decide)]
    rw [if_neg (not_not_intro h4)]
    rw [if_neg (show ¬(st.messageQueue.isEmpty = true) from by simp [h5])]
    dsimp only
    rw [if_neg (show ¬((st.messageQueue.take st.requestsPerTick).isEmpty = true) from by
      simp [h6])]
    rw [hres]
    rw [if_pos rfl]
  rw [hstep]
  exact ⟨rfl, rfl, noSendsFrom_of_invalid _ ops rfl⟩

/-- Witness for `breaker_halts_all_sends`: one queued message, a 404
outcome, then an add and a further tick, none of which sends. -/
theorem breaker_halts_all_sends_witness :
    processTickSends (readyState [sampleMsg]) 0 = true ∧
    invalidResult.webhookInvalid = true ∧
    (processTick (readyState [sampleMsg]) 0 invalidResult).webhookInvalid = true ∧
    (processTick (readyState [sampleMsg]) 0 invalidResult).messageQueue = [] ∧
    noSendsFrom (processTick (readyState [sampleMsg]) 0 invalidResult)
      [QueueOp.add sampleMsg, QueueOp.tick 1 failResult] := by
  have h := breaker_halts_all_sends (readyState [sampleMsg]) 0 invalidResult
    [QueueOp.add sampleMsg, QueueOp.tick 1 failResult] (by decide) rfl
  exact ⟨by decide, rfl, h.1, h.2.1, h.2.2⟩

/-! Failed-batch requeue order. -/

lemma requeueFailed_eq_reverse : ∀ batch queue : List DiscordMessage,
    requeueFailed batch queue = (survivors batch).reverse ++ queue
  | [], queue => by simp [requeueFailed, survivors]
  | msg :: rest, queue => by
    simp only [requeueFailed, survivors, List.map_cons, List.filter_cons]
    split
    · next hguard =>
      rw [requeueFailed_eq_reverse rest _]
      rw [if_pos (decide_eq_true hguard)]
      simp [survivors, List.reverse_cons, List.append_assoc]
    · next hguard =>
      rw [requeueFailed_eq_reverse rest _]
      rw [if_neg (by simpa using hguard)]
      simp [survivors]

/-- C4 counterexample: a two-message batch `[msgA, msgB]` taken from the
queue head whose delivery fails is reinserted by the `forEach`/`unshift`
loop in reversed order `[msgB, msgA]`, not in its original relative order
as the claim states. -/
theorem failed_batch_requeue_reverses :
    (processTick twoBatchState 0 failResult).messageQueue =
      [{ msgB with retryAttempts := 1 }, { msgA with retryAttempts := 1 }] ∧
    (processTick twoBatchState 0 failResult).messageQueue ≠
      [{ msgA with retryAttempts := 1 }, { msgB with retryAttempts := 1 }] := by
  constructor
  · decide
  · decide

/-- C4 (amended): a non-empty failed batch taken from the queue head is
reinserted at the head with counters incremented and over-cap messages
dropped, in reversed relative order (`(survivors batch).reverse`), while
the not-yet-delivered messages behind it keep their relative order; for the
one-message batches the constructor's `requestsPerTick = 1` always
produces, the reversal coincides with the original order. -/
theorem failed_batch_requeue_order (st : QueueState) (now : ℚ)
    (result : SendToDiscordResult) (batch rest : List DiscordMessage)
    (hq : st.messageQueue = batch ++ rest) (hlen : batch.length = st.requestsPerTick)
    (hbne : batch ≠ [])
    (hsend : st.isSending = false) (hinv : st.webhookInvalid = false)
    (hshut : st.isShuttingDown = false) (hbk : st.rateLimitedUntil ≤ now)
    (hwi : result.webhookInvalid = false)
    (hfail : (result.rateLimited = true ∧ result.retryAfter ≠ 0) ∨
      result.success = false) :
    (processTick st now result).messageQueue = (survivors batch).reverse ++ rest := by
  have htake : st.messageQueue.take st.requestsPerTick = batch := by
    rw [hq, ← hlen, List.take_left]
  have hdrop : st.messageQueue.drop st.requestsPerTick = rest := by
    rw [hq, ← hlen, List.drop_left]
  have hqne : st.messageQueue.isEmpty = false := by
    rw [hq]
    cases batch with
    | nil => exact absurd rfl hbne
    | cons b tl => simp
  unfold processTick
  rw [hsend, hinv, hshut]
  rw [if_neg (show ¬((false || false || false) = true) from by decide)]
  rw [if_neg (not_not_intro hbk)]
  rw [if_neg (show ¬(st.messageQueue.isEmpty = true) from by simp [hqne])]
  dsimp only
  rw [htake, hdrop]
  rw [if_neg (show ¬(batch.isEmpty = true) from by simpa [List.isEmpty_iff] using hbne)]
  rw [hwi]
  rw [if_neg (show ¬(false = true) from by decide)]
  cases hcond : (result.rateLimited && decide (result.retryAfter ≠ 0)) with
  | true =>
    rw [if_pos rfl]
    exact requeueFailed_eq_reverse batch rest
  | false =>
    rw [if_neg (show ¬(false = true) from by decide)]
    have hsucc : result.success = false := by
      rcases hfail with ⟨hrl, hra⟩ | hs
      · rw [hrl] at hcond
        simp [hra] at hcond
      · exact hs
    rw [hsucc]
    rw [if_neg (show ¬(false = true) from by decide)]
    exact requeueFailed_eq_reverse batch rest

/-- Witness for `failed_batch_requeue_order` on the singleton batch
`[msgA]` with `[msgB]` behind it. -/
theorem failed_batch_requeue_order_witness :
    (readyState [msgA, msgB]).messageQueue = [msgA] ++ [msgB] ∧
    ([msgA] : List DiscordMessage).length = (readyState [msgA, msgB]).requestsPerTick ∧
    failResult.success = false ∧
    (processTick (readyState [msgA, msgB]) 0 failResult).messageQueue =
      (survivors [msgA]).reverse ++ [msgB] := by
  have h := failed_batch_requeue_order (readyState [msgA, msgB]) 0 failResult
    [msgA] [msgB] rfl rfl (by simp) rfl rfl rfl (by norm_num [readyState]) rfl
    (Or.inr rfl)
  exact ⟨rfl, rfl, rfl, h⟩

/-! Shutdown drain. -/

lemma processTick_shutdown_noop (st : QueueState) (now : ℚ)
    (result : SendToDiscordResult) (h : st.isShuttingDown = true) :
    processTick st now result = st := by
  unfold processTick
  rw [if_pos (show (st.isSending || st.webhookInvalid || st.isShuttingDown) = true from by
    rw [h]
    simp)]

lemma processTickSends_shutdown (st : QueueState) (now : ℚ)
    (h : st.isShuttingDown = true) :
    processTickSends st now = false := by
  unfold processTickSends
  rw [h]
  simp

lemma shutdownDrain_noop (st : QueueState) (h : st.isShuttingDown = true) :
    ∀ ticks : List (ℚ × SendToDiscordResult), shutdownDrain st ticks = st
  | [] => rfl
  | t :: ts => by
    simp only [shutdownDrain, List.foldl_cons]
    rw [processTick_shutdown_noop st t.1 t.2 h]
    exact shutdownDrain_noop st h ts

/-- C5 bug exhibit: `gracefulShutdown` first runs `beginShutdown` (setting
`isShuttingDown`) and `flushBuffer`, then drains with repeated
`processTick` calls — but `processTick` returns immediately whenever
`isShuttingDown` is set, so the entire drain loop leaves the state
untouched and never reaches the transport: zero delivery attempts are made
for the flushed message, for any state and any number of drain
iterations. -/
theorem shutdown_drain_never_sends (st : QueueState)
    (ticks : List (ℚ × SendToDiscordResult)) :
    shutdownDrain (flushBuffer (beginShutdown st)) ticks =
      flushBuffer (beginShutdown st) ∧
    ∀ now : ℚ, processTickSends (flushBuffer (beginShutdown st)) now = false := by
  have hsd : (flushBuffer (beginShutdown st)).isShuttingDown = true := by
    rw [flushBuffer_isShuttingDown]
    rfl
  exact ⟨shutdownDrain_noop _ hsd ticks, fun now => processTickSends_shutdown _ now hsd⟩

/-! Zero retry-after rate-limit outcome. -/

/-- C10: a rate-limited outcome whose `retryAfter` is 0 fails the truthiness
test `result.rateLimited && result.retryAfter`, so `processTick` leaves
`rateLimitedUntil` unchanged (no backoff) and handles the batch through the
generic-failure path: requeued via the retry-counter loop. -/
theorem zero_retry_after_skips_backoff (st : QueueState) (now : ℚ)
    (result : SendToDiscordResult)
    (hsend : st.isSending = false) (hinv : st.webhookInvalid = false)
    (hshut : st.isShuttingDown = false) (hbk : st.rateLimitedUntil ≤ now)
    (hqne : st.messageQueue ≠ []) (hrpt : st.requestsPerTick ≠ 0)
    (hrl : result.rateLimited = true) (hra : result.retryAfter = 0)
    (hsucc : result.success = false) (hwi : result.webhookInvalid = false) :
    (processTick st now result).rateLimitedUntil = st.rateLimitedUntil ∧
    (processTick st now result).messageQueue =
      requeueFailed (st.messageQueue.take st.requestsPerTick)
        (st.messageQueue.drop st.requestsPerTick) := by
  have hcond : (result.rateLimited && decide (result.retryAfter ≠ 0)) = false := by
    rw [hrl, hra]
    simp
  have htne : (st.messageQueue.take st.requestsPerTick).isEmpty = false := by
    simp [List.isEmpty_iff, List.take_eq_nil_iff, hqne, hrpt]
  have hstep : processTick st now result = { st with messageQueue := requeueFailed (st.messageQueue.take st.requestsPerTick) (st.messageQueue.drop st.requestsPerTick) } := by
    unfold processTick
    rw [hsend, hinv, hshut]
    rw [if_neg (show ¬((false || false || false) = true) from by decide)]
    rw [if_neg (not_not_intro hbk)]
    rw [if_neg (show ¬(st.messageQueue.isEmpty = true) from by
      simp [List.isEmpty_iff, hqne])]
    dsimp only
    rw [if_neg (show ¬((st.messageQueue.take st.requestsPerTick).isEmpty = true) from by
      simp [htne])]
    rw [hwi]
    rw [if_neg (show ¬(false = true) from by decide)]
    rw [hcond]
    rw [if_neg (show ¬(false = true) from by decide)]
    rw [hsucc]
    rw [if_neg (show ¬(false = true) from by decide)]
  rw [hstep]
  exact ⟨rfl, rfl⟩

/-- Witness for `zero_retry_after_skips_backoff` on a one-message queue. -/
theorem zero_retry_after_skips_backoff_witness :
    rateLimitedZero.rateLimited = true ∧
    rateLimitedZero.retryAfter = 0 ∧
    (processTick (readyState [sampleMsg]) 0 rateLimitedZero).rateLimitedUntil =
      (readyState [sampleMsg]).rateLimitedUntil ∧
    (processTick (readyState [sampleMsg]) 0 rateLimitedZero).messageQueue =
      requeueFailed [sampleMsg] [] := by
  have h := zero_retry_after_skips_backoff (readyState [sampleMsg]) 0 rateLimitedZero
    rfl rfl rfl (by norm_num [readyState]) (by simp [readyState]) (by simp [readyState])
    rfl rfl rfl rfl
  exact ⟨rfl, rfl, h.1, h.2⟩

end PM2Discord
